import Mathlib

/-!
Verification of the Telegram sender application core (src/main.py).

Shallow embedding of the connection worker, the template engine and the
dispatch loop of `src/main.py`, with theorems settling the specification
claims. Text is modelled as `List Char`; Python `str.replace` is modelled
by `pyReplace`; Python dictionary accesses that may raise `KeyError` are
modelled by `Option` fields, a missing key raising the modelled error.
-/

namespace TgApp

/-- One scan step of Python `str.replace` for a non-empty pattern
`p₀ :: ps`: at each position, if the pattern is a prefix, emit the
replacement and skip the matched characters (leftmost, non-overlapping),
otherwise keep the character and continue. -/
def pyReplaceP (p₀ : Char) (ps rep : List Char) : List Char → List Char
  | [] => []
  | c :: t =>
    if (p₀ :: ps).isPrefixOf (c :: t) then
      rep ++ pyReplaceP p₀ ps rep (t.drop ps.length)
    else
      c :: pyReplaceP p₀ ps rep t
termination_by t => t.length
decreasing_by
  · simp only [List.length_drop, List.length_cons]
    omega
  · simp

/-- Python `text.replace(pat, rep)`: replaces every (leftmost,
non-overlapping) occurrence of `pat` by `rep`.  For the empty pattern,
CPython inserts `rep` at every gap (`"ab".replace("", "X") = "XaXbX"`);
the app only ever calls it with patterns of the form `"[" + name + "]"`,
which are never empty. -/
def pyReplace (t pat rep : List Char) : List Char :=
  match pat with
  | [] => rep ++ t.flatMap (fun c => c :: rep)
  | p₀ :: ps => pyReplaceP p₀ ps rep t

/-- The placeholder token for a parameter name: `"[" + name + "]"`
(`f"[{name}]"` in the source). -/
def placeholder (name : List Char) : List Char :=
  '[' :: name ++ [']']

/-- `TelegramSenderApp.replace_vars` (src/main.py:854-859): for each
parameter `(name, value)` in list order, replace every occurrence of
`[name]` in the whole current text by `value`. -/
def replace_vars (parameters : List (List Char × List Char)) (text : List Char) :
    List Char :=
  parameters.foldl (fun t p => pyReplace t (placeholder p.1) p.2) text

example : pyReplace "[A]".toList "[A]".toList "x".toList = "x".toList := by
  simp [pyReplace, pyReplaceP]

example :
    replace_vars [("A".toList, "[B]".toList), ("B".toList, "x".toList)] "[A]".toList
      = "x".toList := by
  simp [replace_vars, pyReplace, pyReplaceP, placeholder]

example :
    replace_vars [("B".toList, "x".toList), ("A".toList, "[B]".toList)] "[A]".toList
      = "[B]".toList := by
  simp [replace_vars, pyReplace, pyReplaceP, placeholder]

/-- A well-formed parameter name contains no bracket characters. -/
def wfName (n : List Char) : Prop := '[' ∉ n ∧ ']' ∉ n

instance (n : List Char) : Decidable (wfName n) := by
  unfold wfName
  infer_instance

lemma placeholder_ne_nil (n : List Char) : placeholder n ≠ [] := by
  simp [placeholder]

lemma pyReplaceP_cons (p₀ : Char) (ps rep : List Char) (c : Char) (t : List Char) :
    pyReplaceP p₀ ps rep (c :: t) =
      if (p₀ :: ps).isPrefixOf (c :: t) then
        rep ++ pyReplaceP p₀ ps rep (t.drop ps.length)
      else
        c :: pyReplaceP p₀ ps rep t := by
  rw [pyReplaceP]

/-- The scan of `pyReplaceP` walks over a segment that contains no `'['`
without touching it: no occurrence of a pattern starting with `'['` can
begin inside such a segment. -/
lemma pyReplaceP_append_of_not_mem (ps rep : List Char) {u : List Char}
    (w : List Char) (hu : '[' ∉ u) :
    pyReplaceP '[' ps rep (u ++ w) = u ++ pyReplaceP '[' ps rep w := by
  induction u with
  | nil => simp
  | cons c u ih =>
    have hc : '[' ≠ c := by
      intro h
      exact hu (h ▸ List.mem_cons_self c u)
    have hnp : ¬ ('[' :: ps).isPrefixOf (c :: (u ++ w)) := by
      rw [ List.isPrefixOf_iff_prefix, List.cons_prefix_cons]
      rintro ⟨h1, -⟩
      exact hc h1
    rw [List.cons_append, pyReplaceP_cons, if_neg hnp,
      ih fun h => hu (List.mem_cons_of_mem _ h), List.cons_append]

/-- If the pattern occurs in the text, the replacement value is a
substring of the result of `pyReplaceP`. -/
lemma rep_infix_pyReplaceP {p₀ : Char} {ps : List Char} (rep : List Char) :
    ∀ t : List Char, (p₀ :: ps) <:+: t → rep <:+: pyReplaceP p₀ ps rep t := by
  intro t
  induction t using pyReplaceP.induct p₀ ps rep with
  | case1 =>
    intro h
    exact absurd (List.eq_nil_of_infix_nil h) (by simp)
  | case2 c t hpre ih =>
    intro _
    rw [pyReplaceP_cons, if_pos hpre]
    exact (List.prefix_append rep _).isInfix
  | case3 c t hpre ih =>
    intro h
    rw [pyReplaceP_cons, if_neg hpre]
    rcases List.infix_cons_iff.mp h with hp | hi
    · exact absurd ( List.isPrefixOf_iff_prefix.mpr hp) hpre
    · exact List.infix_cons (ih hi)

/-- An element sitting past position `u.length` on the left of an append
equation lies inside the longer left part on the right. -/
lemma mem_of_append_eq_append {α : Type} {u w p q : List α} {a : α}
    (h : u ++ a :: w = p ++ q) (hl : u.length < p.length) : a ∈ p := by
  induction u generalizing p with
  | nil =>
    cases p with
    | nil => simp at hl
    | cons x p' =>
      have hx : a = x := by
        have := congrArg List.head? h
        simpa using this
      exact hx ▸ List.mem_cons_self x p'
  | cons y u ih =>
    cases p with
    | nil => simp at hl
    | cons x p' =>
      rw [List.cons_append, List.cons_append, List.cons.injEq] at h
      exact List.mem_cons_of_mem _ (ih h.2 (by simpa using hl))

/-- Two placeholder-shaped prefixes of the same list have the same name,
provided neither name contains `']'`. -/
lemma name_eq_of_append_rbracket {b c u w : List Char}
    (hb : ']' ∉ b) (hc : ']' ∉ c)
    (h : b ++ ']' :: u = c ++ ']' :: w) : b = c := by
  induction b generalizing c with
  | nil =>
    cases c with
    | nil => rfl
    | cons x c' =>
      rw [List.nil_append, List.cons_append, List.cons.injEq] at h
      exact absurd (h.1 ▸ List.mem_cons_self x c') hc
  | cons y b' ih =>
    cases c with
    | nil =>
      rw [List.nil_append, List.cons_append, List.cons.injEq] at h
      exact absurd (h.1.symm ▸ List.mem_cons_self y b') hb
    | cons x c' =>
      rw [List.cons_append, List.cons_append, List.cons.injEq] at h
      rw [h.1, ih (fun hm => hb (List.mem_cons_of_mem _ hm))
        (fun hm => hc (List.mem_cons_of_mem _ hm)) h.2]

/-- Occurrences of `[b]` and `[c]` with distinct bracket-free names never
overlap, so replacing every `[c]` preserves any occurrence of `[b]`. -/
lemma placeholder_infix_pyReplaceP_of_ne {b c : List Char} (v : List Char)
    (hbc : b ≠ c) (hb : wfName b) (hc : wfName c) :
    ∀ t : List Char, placeholder b <:+: t →
      placeholder b <:+: pyReplaceP '[' (c ++ [']']) v t := by
  intro t
  refine pyReplaceP.induct '[' (c ++ [']']) v
    (fun t => placeholder b <:+: t →
      placeholder b <:+: pyReplaceP '[' (c ++ [']']) v t) ?_ ?_ ?_ t
  · intro h
    exact absurd (List.eq_nil_of_infix_nil h) (placeholder_ne_nil b)
  · intro x t hpre ih hin
    rw [pyReplaceP_cons, if_pos hpre]
    obtain ⟨r, hr⟩ := List.isPrefixOf_iff_prefix.mp hpre
    rw [List.cons_append, List.cons.injEq] at hr
    obtain ⟨hx, ht⟩ := hr
    subst hx
    subst ht
    rw [List.drop_left] at ih ⊢
    obtain ⟨s₁, s₂, h₁⟩ := hin
    -- the occurrence of `[b]` cannot overlap the matched `[c]` prefix
    have hrec : placeholder b <:+: r := by
      cases s₁ with
      | nil =>
        rw [List.nil_append, placeholder, List.cons_append, List.cons_append,
          List.cons.injEq] at h₁
        have h₂ : b ++ ']' :: s₂ = c ++ ']' :: r := by
          have := h₁.2
          simpa using this
        exact absurd (name_eq_of_append_rbracket hb.2 hc.2 h₂) hbc
      | cons y s₁' =>
        rw [List.cons_append, List.cons_append, List.cons.injEq] at h₁
        have h₂ : s₁' ++ '[' :: ((b ++ [']']) ++ s₂) = (c ++ [']']) ++ r := by
          have := h₁.2
          rw [placeholder] at this
          simpa using this
        by_cases hk : s₁'.length < (c ++ [']']).length
        · -- would put a `'['` strictly inside `[c]`: impossible
          have hmem := mem_of_append_eq_append h₂ hk
          rcases List.mem_append.mp hmem with h3 | h3
          · exact absurd h3 hc.1
          · simp at h3
        · push_neg at hk
          simp only [List.length_append, List.length_cons, List.length_nil] at hk
          rcases List.append_eq_append_iff.mp h₂ with ⟨a', ha1, ha2⟩ | ⟨c', hc1, hc2⟩
          · have ha0 : a' = [] := by
              have hlen := congrArg List.length ha1
              simp at hlen
              have : a'.length = 0 := by omega
              exact List.eq_nil_of_length_eq_zero this
            subst ha0
            rw [List.nil_append] at ha2
            exact ⟨[], s₂, by
              rw [List.nil_append, ← ha2, placeholder]
              simp⟩
          · exact ⟨c', s₂, by
              rw [hc2, placeholder]
              simp⟩
    exact ((ih hrec).trans (List.suffix_append v _).isInfix)
  · intro x t hpre ih hin
    rw [pyReplaceP_cons, if_neg hpre]
    rcases List.infix_cons_iff.mp hin with hp | hi
    · obtain ⟨r, hr⟩ := hp
      -- the head is `'['`, the rest starts with the bracket-free `b ++ [']']`
      have hr' : ('[' : Char) :: ((b ++ [']']) ++ r) = x :: t := by
        rw [← hr, placeholder]
        simp
      rw [List.cons.injEq] at hr'
      obtain ⟨hx, ht⟩ := hr'
      subst hx
      rw [← ht, pyReplaceP_append_of_not_mem _ _ _ (by
        intro hmem
        rcases List.mem_append.mp hmem with h1 | h1
        · exact hb.1 h1
        · simp at h1)]
      have hgoal : ('[' : Char) :: ((b ++ [']']) ++ pyReplaceP '[' (c ++ [']']) v r)
          = placeholder b ++ pyReplaceP '[' (c ++ [']']) v r := by
        rw [placeholder]
        simp
      rw [hgoal]
      exact (List.prefix_append _ _).isInfix
    · exact List.infix_cons (ih hi)

lemma replace_vars_append (ps qs : List (List Char × List Char)) (t : List Char) :
    replace_vars (ps ++ qs) t = replace_vars qs (replace_vars ps t) := by
  simp [replace_vars, List.foldl_append]

lemma pyReplace_placeholder (t n rep : List Char) :
    pyReplace t (placeholder n) rep = pyReplaceP '[' (n ++ [']']) rep t := rfl

/-- Passes for parameters other than `b` (all bracket-free) preserve an
occurrence of the placeholder `[b]`. -/
lemma placeholder_infix_replace_vars {b : List Char} (hb : wfName b)
    (post : List (List Char × List Char))
    (hpost : ∀ p ∈ post, p.1 ≠ b ∧ wfName p.1) :
    ∀ t : List Char, placeholder b <:+: t →
      placeholder b <:+: replace_vars post t := by
  induction post with
  | nil =>
    intro t h
    simpa [replace_vars] using h
  | cons q qs ih =>
    intro t h
    have hq := hpost q (List.mem_cons_self q qs)
    have h1 : placeholder b <:+: pyReplace t (placeholder q.1) q.2 := by
      rw [pyReplace_placeholder]
      exact placeholder_infix_pyReplaceP_of_ne q.2 (Ne.symm hq.1) hb hq.2 t h
    have h2 : replace_vars (q :: qs) t
        = replace_vars qs (pyReplace t (placeholder q.1) q.2) := by
      simp [replace_vars]
    rw [h2]
    exact ih (fun p hp => hpost p (List.mem_cons_of_mem _ hp)) _ h1

lemma rep_infix_pyReplace {pat : List Char} (rep t : List Char)
    (hne : pat ≠ []) (h : pat <:+: t) : rep <:+: pyReplace t pat rep := by
  match pat, hne with
  | p₀ :: ps, _ => exact rep_infix_pyReplaceP rep t h

/-- Claim C1, counterexample: with bindings `[A ↦ "[B]", B ↦ "x"]` in that
order, substituting in `"[A]"` yields `"x"`: the literal `[B]` contained
in the value bound to `A` is **not** left verbatim — parameter `B`'s later
pass re-scans it.  This refutes the claim's "regardless of the relative
order of A and B". -/
theorem C1_counterexample :
    ¬ placeholder "B".toList <:+:
        replace_vars [("A".toList, "[B]".toList), ("B".toList, "x".toList)]
          "[A]".toList := by
  have h : replace_vars [("A".toList, "[B]".toList), ("B".toList, "x".toList)]
      "[A]".toList = "x".toList := by
    simp [replace_vars, pyReplace, pyReplaceP, placeholder]
  rw [h]
  decide

/-- Claim C1 (amended): parameter substitution applies the bindings in
list order to the whole current text, so a substituted value is re-scanned
by the passes of all *later* parameters.  The occurrence of `[B]` inside
the value bound to `A` is guaranteed to be left verbatim only when no
binding after `A` is for the name `B` (names being bracket-free): if `[A]`
occurs in the text when `A`'s pass runs and `A`'s value contains `[B]`,
then `[B]` occurs verbatim in the final result. -/
theorem C1_no_rescan_amended
    (pre post : List (List Char × List Char)) (a va b text : List Char)
    (ha : placeholder a <:+: replace_vars pre text)
    (hv : placeholder b <:+: va)
    (hb : wfName b)
    (hpost : ∀ p ∈ post, p.1 ≠ b ∧ wfName p.1) :
    placeholder b <:+: replace_vars (pre ++ (a, va) :: post) text := by
  rw [show pre ++ (a, va) :: post = (pre ++ [(a, va)]) ++ post by simp,
    replace_vars_append, replace_vars_append]
  have h1 : placeholder b <:+: replace_vars [(a, va)] (replace_vars pre text) := by
    have h2 : va <:+: pyReplace (replace_vars pre text) (placeholder a) va :=
      rep_infix_pyReplace va _ (placeholder_ne_nil a) ha
    have h3 : replace_vars [(a, va)] (replace_vars pre text)
        = pyReplace (replace_vars pre text) (placeholder a) va := by
      simp [replace_vars]
    rw [h3]
    exact hv.trans h2
  exact placeholder_infix_replace_vars hb post hpost _ h1

/-- Witness for C1 (amended) at a concrete input: binding list
`[B ↦ "x", A ↦ "[B]"]` (so `B` precedes `A`), text `"[A]"`; the result
contains `[B]` verbatim. -/
theorem C1_no_rescan_amended_witness :
    placeholder "B".toList <:+:
      replace_vars [("B".toList, "x".toList), ("A".toList, "[B]".toList)]
        "[A]".toList :=
  C1_no_rescan_amended [("B".toList, "x".toList)] [] "A".toList "[B]".toList
    "B".toList "[A]".toList
    (by
      have h : replace_vars [("B".toList, "x".toList)] "[A]".toList
          = "[A]".toList := by
        simp [replace_vars, pyReplace, pyReplaceP, placeholder]
      rw [h]
      decide)
    (by decide) (by decide)
    (by intro p hp; simp at hp)

/-- Association-list lookup modelling `dict.get(key)` on the
`custom_templates` mapping (template name to override body);
`none` when the key is absent. -/
def dictGet (k : List Char) : List (List Char × List Char) → Option (List Char)
  | [] => none
  | (k', v) :: rest => if k' = k then some v else dictGet k rest

/-- Resolution of the outbound text for one recipient.
`prepare_send` (src/main.py:1489) substitutes the parameters into the
base text once, producing `replaced_message`; `show_confirmation_dialog`
(src/main.py:1516-1523) looks up the recipient's override for the active
template name and applies `replace_vars` to the override if present,
otherwise to the already-substituted `replaced_message` again.
`current_tpl` models `getattr(self, 'current_template_name', None)`; both
`None` and the empty string are falsy in Python, skipping the lookup. -/
def resolve_text (parameters : List (List Char × List Char))
    (current_tpl : Option (List Char))
    (custom_templates : List (List Char × List Char))
    (base : List Char) : List Char :=
  let replaced_message := replace_vars parameters base
  let override : Option (List Char) :=
    match current_tpl with
    | none => none
    | some tpl => if tpl = [] then none else dictGet tpl custom_templates
  replace_vars parameters (override.getD replaced_message)

/-- Claim C4, counterexample: with the single binding
`client ↦ "[client]!"` and no override, the resolved text for base
`"[client]"` is `"[client]!!"`, whereas the base with the binding applied
exactly once is `"[client]!"`: the base text undergoes parameter
substitution twice (once in `prepare_send`, once more in the confirmation
dialog), not exactly once as claimed. -/
theorem C4_counterexample :
    resolve_text [("client".toList, "[client]!".toList)] none []
        "[client]".toList = "[client]!!".toList ∧
    replace_vars [("client".toList, "[client]!".toList)] "[client]".toList
      = "[client]!".toList ∧
    "[client]!!".toList ≠ "[client]!".toList := by
  refine ⟨?_, ?_, by decide⟩
  · simp [resolve_text, replace_vars, pyReplace, pyReplaceP, placeholder]
  · simp [replace_vars, pyReplace, pyReplaceP, placeholder]

/-- Claim C4 (amended): for a recipient with an override stored under the
(non-empty) active template name, the resolved text is the
parameter-substituted override — the base text never enters; for a
recipient without such an override, the resolved text is the base text
with the binding list applied **twice** (once by `prepare_send`, once
more by the confirmation dialog), not exactly once. -/
theorem C4_resolve_override_amended
    (params cts : List (List Char × List Char)) (tpl base : List Char)
    (htpl : tpl ≠ []) :
    (∀ o, dictGet tpl cts = some o →
      resolve_text params (some tpl) cts base = replace_vars params o) ∧
    (dictGet tpl cts = none →
      resolve_text params (some tpl) cts base
        = replace_vars params (replace_vars params base)) := by
  constructor
  · intro o ho
    simp [resolve_text, htpl, ho]
  · intro ho
    simp [resolve_text, htpl, ho]

/-- Witness for C4 (amended): a stored override `"Hello [client]"` for
template `"t1"` resolves to the parameter-substituted override. -/
theorem C4_resolve_override_amended_witness :
    resolve_text [("client".toList, "Acme".toList)] (some "t1".toList)
        [("t1".toList, "Hello [client]".toList)] "[client]".toList
      = replace_vars [("client".toList, "Acme".toList)] "Hello [client]".toList :=
  (C4_resolve_override_amended [("client".toList, "Acme".toList)]
    [("t1".toList, "Hello [client]".toList)] "t1".toList "[client]".toList
    (by decide)).1 "Hello [client]".toList (by simp [dictGet])

/-- State of `TelethonWorker` (src/main.py:24-99).  The four attributes
set in `__init__` are each `None` until a successful `start`; they are
modelled as `Option` over opaque handles (the dedicated thread, its event
loop, the Telethon client, the asyncio lock).  The internal
`threading.Event` used only to synchronise `start`'s blocking wait has no
observable effect in this sequential model and is omitted;  `start`
clears it before any other action, so it does not distinguish a
freshly-constructed worker from one reset by a failed `start`. -/
structure TelethonWorker where
  thread : Option Nat
  loop : Option Nat
  client : Option Nat
  lock : Option Nat
deriving DecidableEq

/-- `TelethonWorker.__init__` (src/main.py:25-30): all four attributes
are `None`. -/
def TelethonWorker.initial : TelethonWorker := ⟨none, none, none, none⟩

/-- `TelethonWorker.start` (src/main.py:32-88).  If a thread already
exists, return immediately (idempotent).  Otherwise the runner thread
creates a loop and a lock and runs the `init_client` handshake, whose
outcome is the `handshake` argument (`ok` a client handle, or `error` the
raised exception): on success the four attributes are populated; on
failure (src/main.py:79-88) the thread is joined, all four attributes are
reset to `None`, and the runner's exception is re-raised to the caller. -/
def TelethonWorker.start (w : TelethonWorker) (handshake : Except Nat Nat) :
    Except Nat Unit × TelethonWorker :=
  if w.thread.isSome then (Except.ok (), w)
  else
    match handshake with
    | Except.ok c => (Except.ok (), ⟨some 0, some 0, some c, some 0⟩)
    | Except.error e => (Except.error e, TelethonWorker.initial)

/-- Result of `TelethonWorker.call` as seen by the caller: the
`RuntimeError` raised when no worker thread exists, or the
result/exception of the operation run against `self.client`. -/
inductive CallResult (α : Type)
  | notStarted
  | ran (r : Except Nat α)

/-- `TelethonWorker.call` (src/main.py:90-99): if `self.thread is None`,
raise `RuntimeError` at once — the operation is never invoked; otherwise
run the operation serialized under the lock on the worker loop, passing
`self.client`, and return its result or exception to the caller. -/
def TelethonWorker.call {α : Type} (w : TelethonWorker)
    (op : Option Nat → Except Nat α) : CallResult α :=
  if w.thread = none then CallResult.notStarted
  else CallResult.ran (op w.client)

/-- Claim C6: invoking `call` on a worker with no thread (the state
before any successful `start`, and also the state after a failed `start`)
yields the not-started error for **every** operation — the conclusion
holds uniformly in `op`, so the operation is never run. -/
theorem C6_call_before_start {α : Type} (w : TelethonWorker)
    (op : Option Nat → Except Nat α) (e : Nat)
    (h : w.thread = none) :
    w.call op = CallResult.notStarted ∧
    (TelethonWorker.initial.start (Except.error e)).2.thread = none := by
  constructor
  · simp [TelethonWorker.call, h]
  · rfl

/-- Witness for C6: `call` on the freshly-constructed worker fails with
the not-started error. -/
theorem C6_call_before_start_witness :
    TelethonWorker.initial.call (fun _ => (Except.ok 7 : Except Nat Nat))
      = CallResult.notStarted :=
  (C6_call_before_start TelethonWorker.initial
    (fun _ => (Except.ok 7 : Except Nat Nat)) 0 rfl).1

/-- Claim C7: when the connect/authenticate handshake inside `start`
fails with exception `e`, `start` raises exactly `e` (the underlying
cause) and returns the worker to the literal initial state — thread,
loop, client and lock all `None` — so every subsequent interaction
behaves as if `start` had never been invoked. -/
theorem C7_failed_start_resets (w : TelethonWorker) (e : Nat)
    (h : w.thread = none) :
    w.start (Except.error e) = (Except.error e, TelethonWorker.initial) := by
  simp [TelethonWorker.start, h]

/-- Witness for C7: a failed handshake on the fresh worker. -/
theorem C7_failed_start_resets_witness :
    TelethonWorker.initial.start (Except.error 3)
      = (Except.error 3, TelethonWorker.initial) :=
  C7_failed_start_resets TelethonWorker.initial 3 rfl

/-- A stored group record (an entry of `app_data["groups"]`). -/
structure GroupRec where
  id : Int
  name : List Char
  client_number : List Char
  tags : List (List Char)
  custom_templates : List (List Char × List Char)
deriving DecidableEq

/-- A stored theme record (an entry of `app_data["themes"]`). -/
structure ThemeRec where
  group_id : Int
  topic_id : Int
  name : List Char
  client_number : List Char
  tags : List (List Char)
  custom_templates : List (List Char × List Char)
deriving DecidableEq

/-- The contact store (`app_data`); the `templates` list is not touched
by the modelled operations and is omitted. -/
structure AppData where
  groups : List GroupRec
  themes : List ThemeRec
  tags : List (List Char)
deriving DecidableEq

/-- The tag-registration loop shared by `add_group`/`add_theme`
(src/main.py:1032-1033, 1062-1063): append each entered tag that is not
yet known. -/
def addNewTags (existing new : List (List Char)) : List (List Char) :=
  new.foldl (fun acc t => if t ∈ acc then acc else acc ++ [t]) existing

/-- `add_group` (src/main.py:1023-1042): with a valid integer id and a
non-empty name, appends a new group record unconditionally — there is no
check against an existing group with the same id.  An empty name leaves
the store unchanged (warning only); a non-integer id aborts before this
logic and is modelled by the caller not invoking it. -/
def add_group (d : AppData) (gid : Int) (name client_num : List Char)
    (tags : List (List Char)) : AppData :=
  if name = [] then d
  else
    { d with
      tags := addNewTags d.tags tags,
      groups := d.groups ++ [⟨gid, name, client_num, tags, []⟩] }

/-- `add_theme` (src/main.py:1053-1074): same shape as `add_group`, with
no duplicate check on the (group id, topic id) pair. -/
def add_theme (d : AppData) (gid tid : Int) (name client_num : List Char)
    (tags : List (List Char)) : AppData :=
  if name = [] then d
  else
    { d with
      tags := addNewTags d.tags tags,
      themes := d.themes ++ [⟨gid, tid, name, client_num, tags, []⟩] }

/-- A group fetched from the remote service. -/
structure FetchedGroup where
  id : Int
  name : List Char
deriving DecidableEq

/-- The body of the `for idx in sel` loop of `add_fetched_groups`
(src/main.py:1292-1305): skip the fetched group when a stored group
already has its id; otherwise ask the operator (`_ask_new_group_info`;
`none` models cancelling the dialog) and append a record with the entered
client number and the optional single chosen tag, registering the tag if
new. -/
def add_fetched_group_step (d : AppData)
    (p : FetchedGroup × Option (List Char × Option (List Char))) : AppData :=
  if d.groups.any (fun x => x.id == p.1.id) then d
  else
    match p.2 with
    | none => d
    | some (client_num, selected_tag) =>
      match selected_tag with
      | some tag =>
        { d with
          groups := d.groups ++ [⟨p.1.id, p.1.name, client_num, [tag], []⟩],
          tags := if tag ∈ d.tags then d.tags else d.tags ++ [tag] }
      | none =>
        { d with
          groups := d.groups ++ [⟨p.1.id, p.1.name, client_num, [], []⟩] }

/-- `add_fetched_groups` (src/main.py:1288-1312): the loop over the
selected fetched groups. -/
def add_fetched_groups (d : AppData)
    (sel : List (FetchedGroup × Option (List Char × Option (List Char)))) :
    AppData :=
  sel.foldl add_fetched_group_step d

/-- A forum topic fetched from the remote service. -/
structure FetchedTopic where
  group_id : Int
  topic_id : Int
  name : List Char
deriving DecidableEq

/-- The body of the selection loop of `add_fetched_topics`
(src/main.py:1394-1401): append the fetched topic unless a stored theme
already has the same (group id, topic id) pair. -/
def add_fetched_topic_step (d : AppData) (t : FetchedTopic) : AppData :=
  if d.themes.any (fun x => x.topic_id == t.topic_id && x.group_id == t.group_id)
  then d
  else { d with themes := d.themes ++ [⟨t.group_id, t.topic_id, t.name, [], [], []⟩] }

/-- `add_fetched_topics` (src/main.py:1390-1407): the loop over the
selected fetched topics. -/
def add_fetched_topics (d : AppData) (sel : List FetchedTopic) : AppData :=
  sel.foldl add_fetched_topic_step d

/-- Group-id uniqueness in the contact store. -/
def groupsUnique (d : AppData) : Prop := (d.groups.map GroupRec.id).Nodup

/-- (group id, topic id) uniqueness among stored themes. -/
def themesUnique (d : AppData) : Prop :=
  (d.themes.map fun t => (t.group_id, t.topic_id)).Nodup

instance (d : AppData) : Decidable (groupsUnique d) := by
  unfold groupsUnique
  infer_instance

instance (d : AppData) : Decidable (themesUnique d) := by
  unfold themesUnique
  infer_instance

lemma add_fetched_group_step_unique (d : AppData)
    (p : FetchedGroup × Option (List Char × Option (List Char)))
    (hg : groupsUnique d) : groupsUnique (add_fetched_group_step d p) := by
  unfold add_fetched_group_step
  by_cases hid : d.groups.any (fun x => x.id == p.1.id)
  · simpa [hid] using hg
  · have hnotin : p.1.id ∉ d.groups.map GroupRec.id := by
      intro hmem
      obtain ⟨x, hx, hxid⟩ := List.mem_map.mp hmem
      exact hid (List.any_eq_true.mpr ⟨x, hx, by simp [hxid]⟩)
    rcases p with ⟨g, resp⟩
    match resp with
    | none => simpa [hid] using hg
    | some (client_num, some tag) =>
      simp only [hid, Bool.false_eq_true, if_false]
      unfold groupsUnique at hg ⊢
      simp only [List.map_append, List.map_cons, List.map_nil]
      rw [List.nodup_append]
      exact ⟨hg, List.nodup_singleton _, by simpa [List.Disjoint] using hnotin⟩
    | some (client_num, none) =>
      simp only [hid, Bool.false_eq_true, if_false]
      unfold groupsUnique at hg ⊢
      simp only [List.map_append, List.map_cons, List.map_nil]
      rw [List.nodup_append]
      exact ⟨hg, List.nodup_singleton _, by simpa [List.Disjoint] using hnotin⟩

lemma add_fetched_topic_step_unique (d : AppData) (t : FetchedTopic)
    (ht : themesUnique d) : themesUnique (add_fetched_topic_step d t) := by
  unfold add_fetched_topic_step
  by_cases hid : d.themes.any
      (fun x => x.topic_id == t.topic_id && x.group_id == t.group_id)
  · simpa [hid] using ht
  · have hnotin : (t.group_id, t.topic_id)
        ∉ d.themes.map fun x => (x.group_id, x.topic_id) := by
      intro hmem
      obtain ⟨x, hx, hxid⟩ := List.mem_map.mp hmem
      rw [Prod.mk.injEq] at hxid
      exact hid (List.any_eq_true.mpr ⟨x, hx, by simp [hxid.1, hxid.2]⟩)
    simp only [hid, Bool.false_eq_true, if_false]
    unfold themesUnique at ht ⊢
    simp only [List.map_append, List.map_cons, List.map_nil]
    rw [List.nodup_append]
    exact ⟨ht, List.nodup_singleton _, by simpa [List.Disjoint] using hnotin⟩

/-- Claim C9, counterexample: the manual `add_group` performs no
duplicate check, so adding a group with id 5 twice yields a store whose
group ids are not unique — uniqueness is **not** an invariant of all
stores reachable through the add operations. -/
theorem C9_counterexample :
    ¬ groupsUnique
        (add_group (add_group ⟨[], [], []⟩ 5 "a".toList [] [])
          5 "b".toList [] []) := by
  decide

/-- Claim C9 (amended): only the fetched-add operations enforce
uniqueness — `add_fetched_groups` skips ids already stored and
`add_fetched_topics` skips stored (group id, topic id) pairs, so each
preserves uniqueness of its list — while the manual `add_group` and
`add_theme` append without any duplicate check and can create duplicates
(see the counterexample). -/
theorem C9_fetched_adds_preserve_unique (d : AppData)
    (sg : List (FetchedGroup × Option (List Char × Option (List Char))))
    (st : List FetchedTopic)
    (hg : groupsUnique d) (ht : themesUnique d) :
    groupsUnique (add_fetched_groups d sg) ∧
    themesUnique (add_fetched_topics d st) := by
  constructor
  · rw [add_fetched_groups]
    clear ht st
    induction sg generalizing d with
    | nil => exact hg
    | cons p sel ih =>
      rw [List.foldl_cons]
      exact ih _ (add_fetched_group_step_unique d p hg)
  · rw [add_fetched_topics]
    clear hg sg
    induction st generalizing d with
    | nil => exact ht
    | cons t sel ih =>
      rw [List.foldl_cons]
      exact ih _ (add_fetched_topic_step_unique d t ht)

/-- Witness for C9 (amended): fetched adds on a small concrete store. -/
theorem C9_fetched_adds_preserve_unique_witness :
    groupsUnique
      (add_fetched_groups ⟨[⟨1, "g".toList, [], [], []⟩], [], []⟩
        [(⟨1, "h".toList⟩, some ([], none)), (⟨2, "k".toList⟩, some ([], none))]) ∧
    themesUnique
      (add_fetched_topics ⟨[⟨1, "g".toList, [], [], []⟩], [], []⟩
        [⟨1, 2, "t".toList⟩]) :=
  C9_fetched_adds_preserve_unique ⟨[⟨1, "g".toList, [], [], []⟩], [], []⟩
    [(⟨1, "h".toList⟩, some ([], none)), (⟨2, "k".toList⟩, some ([], none))]
    [⟨1, 2, "t".toList⟩] (by decide) (by decide)

/-- The discriminator `entry['type']` of a confirmed send entry. -/
inductive EntryType
  | group
  | theme
deriving DecidableEq

/-- The recipient record `entry['data']` as consumed by `_send_all`.
Each field models the dictionary key of the same name; `none` means the
key is absent, so that indexing (`data['id']`, `data['group_id']`,
`data['name']`) raises `KeyError` while `data.get('topic_id')` and
`data.get('client_number', 'N/A')` do not. -/
structure RecData where
  id : Option Int
  group_id : Option Int
  topic_id : Option Int
  name : Option (List Char)
  client_number : Option (List Char)
deriving DecidableEq

instance {ε α : Type} [DecidableEq ε] [DecidableEq α] : DecidableEq (Except ε α)
  | Except.ok x, Except.ok y =>
    if h : x = y then Decidable.isTrue (h ▸ rfl)
    else Decidable.isFalse (fun hh => h (Except.ok.inj hh))
  | Except.ok _, Except.error _ =>
    Decidable.isFalse (fun hh => Except.noConfusion hh)
  | Except.error _, Except.ok _ =>
    Decidable.isFalse (fun hh => Except.noConfusion hh)
  | Except.error x, Except.error y =>
    if h : x = y then Decidable.isTrue (h ▸ rfl)
    else Decidable.isFalse (fun hh => h (Except.error.inj hh))

/-- One element of `custom_messages` (built by the confirmation dialog),
together with the outcome the remote service would give to this entry's
send call: `ok` for a delivered message, `error` for a raised exception
with its message text. -/
structure Entry where
  type : EntryType
  data : RecData
  message : List Char
  remote : Except (List Char) Unit
deriving DecidableEq

/-- A remote send call made by the loop, with the arguments passed to
`client.send_file` / `client.send_message` and the entry type that
produced it. -/
inductive SentMsg
  | file (target : Int) (files : List (List Char)) (caption : Option (List Char))
      (reply_to : Option Int) (etype : EntryType)
  | message (target : Int) (text : List Char) (reply_to : Option Int)
      (etype : EntryType)
deriving DecidableEq

/-- The `reply_to` argument of a recorded send call. -/
def SentMsg.replyTo : SentMsg → Option Int
  | SentMsg.file _ _ _ r _ => r
  | SentMsg.message _ _ r _ => r

/-- The entry type that produced a recorded send call. -/
def SentMsg.etype : SentMsg → EntryType
  | SentMsg.file _ _ _ _ ty => ty
  | SentMsg.message _ _ _ ty => ty

/-- The mutable state of one `_send_all` run: the `success`/`failed`
tallies, the number of `asyncio.sleep(rate_delay)` calls performed, the
current binding of the Python local variable `name` (`none` while it has
never been assigned), and the remote send calls made so far. -/
structure SendState where
  success : Nat
  failed : Nat
  slept : Nat
  name : Option (List Char)
  attempts : List SentMsg
deriving DecidableEq

/-- The loop aborting: the `except` handler itself raised
`UnboundLocalError` formatting the log line, because `name` had never
been assigned (src/main.py:1603). -/
inductive PyAbort
  | unboundLocalName
deriving DecidableEq

/-- State at the top of `_send_all` (src/main.py:1585). -/
def initSendState : SendState := ⟨0, 0, 0, none, []⟩

/-- One iteration of the `for entry in custom_messages` loop of
`_send_all` (src/main.py:1586-1605).  The `try` body reads
`data['id']`/`data['group_id']` (KeyError when absent — before `name` is
assigned), computes `reply_to` via `.get` (never raising, `theme` only),
formats and assigns `name`, then sends: files with optional caption when
attachments exist, else a plain message when the text is non-empty, else
nothing (the iteration still logs success and sleeps).  A success
increments `success` and sleeps the rate delay; any caught exception runs
the handler, which logs using the current binding of `name` — raising
`UnboundLocalError` and aborting the whole batch if `name` was never
assigned — and increments `failed`, without sleeping. -/
def sendEntryStep (attachments : List (List Char)) (st : SendState) (e : Entry) :
    Except PyAbort SendState :=
  match (match e.type with
         | EntryType.group => e.data.id
         | EntryType.theme => e.data.group_id) with
  | none =>
    -- KeyError raised before the assignment to `name`
    match st.name with
    | none => Except.error PyAbort.unboundLocalName
    | some _ => Except.ok { st with failed := st.failed + 1 }
  | some recipient_id =>
    let reply_to : Option Int :=
      match e.type with
      | EntryType.theme => e.data.topic_id
      | EntryType.group => none
    match e.data.name with
    | none =>
      -- KeyError on `data['name']`, still before the assignment
      match st.name with
      | none => Except.error PyAbort.unboundLocalName
      | some _ => Except.ok { st with failed := st.failed + 1 }
    | some nm =>
      let name := nm ++ " (клиент: ".toList
        ++ e.data.client_number.getD "N/A".toList ++ ")".toList
      let st := { st with name := some name }
      if attachments ≠ [] then
        let st := { st with attempts := st.attempts ++
          [SentMsg.file recipient_id attachments
            (if e.message = [] then none else some e.message) reply_to e.type] }
        match e.remote with
        | Except.ok _ =>
          Except.ok { st with success := st.success + 1, slept := st.slept + 1 }
        | Except.error _ => Except.ok { st with failed := st.failed + 1 }
      else if e.message ≠ [] then
        let st := { st with attempts := st.attempts ++
          [SentMsg.message recipient_id e.message reply_to e.type] }
        match e.remote with
        | Except.ok _ =>
          Except.ok { st with success := st.success + 1, slept := st.slept + 1 }
        | Except.error _ => Except.ok { st with failed := st.failed + 1 }
      else
        Except.ok { st with success := st.success + 1, slept := st.slept + 1 }

/-- The full loop of `_send_all` (src/main.py:1584-1606), returning the
final state, or the abort when the handler itself raised. -/
def sendAllState (attachments : List (List Char)) (entries : List Entry) :
    Except PyAbort SendState :=
  entries.foldlM (sendEntryStep attachments) initSendState

/-- The value `_send_all` returns to `send_in_thread`: the
`(success, failed)` tally (src/main.py:1606). -/
def send_all (attachments : List (List Char)) (entries : List Entry) :
    Except PyAbort (Nat × Nat) :=
  (sendAllState attachments entries).map fun st => (st.success, st.failed)

/-- An entry whose dictionary accesses succeed: the id key matching its
type is present, and the `name` key is present. -/
def Entry.wf (e : Entry) : Prop :=
  (match e.type with
   | EntryType.group => e.data.id.isSome = true
   | EntryType.theme => e.data.group_id.isSome = true) ∧
  e.data.name.isSome = true

instance (e : Entry) : Decidable e.wf := by
  unfold Entry.wf
  cases e.type <;> infer_instance

/-- Whether this entry's remote send call succeeds. -/
def remoteOk (e : Entry) : Bool :=
  match e.remote with
  | Except.ok _ => true
  | Except.error _ => false

/-- Whether the iteration for this entry counts as a success: the remote
outcome when a send happens; vacuous success when neither attachments nor
text are present (no call is made, but the loop still logs success). -/
def entrySucceeds (attachments : List (List Char)) (e : Entry) : Bool :=
  if attachments ≠ [] then remoteOk e
  else if e.message ≠ [] then remoteOk e
  else true

/-- Accounting across any non-aborting iteration: sleeps and successes
move in lockstep, and exactly one of `success`/`failed` increments. -/
lemma sendEntryStep_ok_counts (a : List (List Char)) (st : SendState) (e : Entry)
    (st' : SendState) (h : sendEntryStep a st e = Except.ok st') :
    st'.slept + st.success = st'.success + st.slept ∧
    st'.success + st'.failed = st.success + st.failed + 1 := by
  simp only [sendEntryStep] at h
  repeat' split at h
  all_goals
    first
      | exact (Except.noConfusion h)
      | (injection h with h
         subst h
         constructor <;> (simp; omega))

/-- Any send call appended by a non-aborting iteration passes a reply
target only for theme entries: a group-typed record carries
`reply_to = none`. -/
lemma sendEntryStep_attempts_group (a : List (List Char)) (st : SendState)
    (e : Entry) (st' : SendState) (h : sendEntryStep a st e = Except.ok st') :
    ∀ m ∈ st'.attempts, m ∈ st.attempts ∨
      (m.etype = EntryType.group → m.replyTo = none) := by
  simp only [sendEntryStep] at h
  repeat' split at h
  all_goals
    first
      | exact (Except.noConfusion h)
      | (injection h with h
         subst h
         intro m hm
         simp only [List.mem_append, List.mem_singleton] at hm
         first
           | exact Or.inl hm
           | (rcases hm with hm | hm
              · exact Or.inl hm
              · subst hm
                refine Or.inr fun hg => ?_
                simp only [SentMsg.etype] at hg
                simp_all [SentMsg.replyTo]))

/-- A well-formed entry never aborts, and its effect on the tallies, the
sleep count and the number of send calls is determined by
`entrySucceeds` and by whether a send happens at all. -/
lemma sendEntryStep_wf (a : List (List Char)) (st : SendState) (e : Entry)
    (hw : e.wf) :
    ∃ st', sendEntryStep a st e = Except.ok st' ∧
      st'.success = st.success + (if entrySucceeds a e then 1 else 0) ∧
      st'.failed = st.failed + (if entrySucceeds a e then 0 else 1) ∧
      st'.slept = st.slept + (if entrySucceeds a e then 1 else 0) ∧
      st'.attempts.length = st.attempts.length
        + (if a ≠ [] ∨ e.message ≠ [] then 1 else 0) := by
  obtain ⟨h1, h2⟩ := hw
  rcases e with ⟨ty, data, msg, rem⟩
  rcases data with ⟨id?, gid?, tid?, nm?, cn?⟩
  obtain ⟨nm, hnm⟩ := Option.isSome_iff_exists.mp h2
  subst hnm
  cases ty with
  | group =>
    obtain ⟨i, hi⟩ := Option.isSome_iff_exists.mp h1
    subst hi
    by_cases ha : a = []
    · subst ha
      by_cases hm : msg = []
      · subst hm
        cases rem <;>
          exact ⟨_, rfl, by simp [entrySucceeds, remoteOk],
            by simp [entrySucceeds, remoteOk],
            by simp [entrySucceeds, remoteOk],
            by simp [entrySucceeds, remoteOk]⟩
      · cases rem <;>
          refine ⟨_, by simp only [sendEntryStep]; rw [if_neg (by simp), if_pos hm], ?_, ?_, ?_, ?_⟩ <;>
          simp [entrySucceeds, remoteOk, hm]
    · cases rem <;>
        refine ⟨_, by simp only [sendEntryStep]; rw [if_pos ha], ?_, ?_, ?_, ?_⟩ <;>
        simp [entrySucceeds, remoteOk, ha]
  | theme =>
    obtain ⟨i, hi⟩ := Option.isSome_iff_exists.mp h1
    subst hi
    by_cases ha : a = []
    · subst ha
      by_cases hm : msg = []
      · subst hm
        cases rem <;>
          exact ⟨_, rfl, by simp [entrySucceeds, remoteOk],
            by simp [entrySucceeds, remoteOk],
            by simp [entrySucceeds, remoteOk],
            by simp [entrySucceeds, remoteOk]⟩
      · cases rem <;>
          refine ⟨_, by simp only [sendEntryStep]; rw [if_neg (by simp), if_pos hm], ?_, ?_, ?_, ?_⟩ <;>
          simp [entrySucceeds, remoteOk, hm]
    · cases rem <;>
        refine ⟨_, by simp only [sendEntryStep]; rw [if_pos ha], ?_, ?_, ?_, ?_⟩ <;>
        simp [entrySucceeds, remoteOk, ha]

/-- The whole loop over well-formed entries: no abort, and the final
tallies, sleeps and number of send calls are counts over the entries. -/
lemma sendAll_fold_wf (a : List (List Char)) :
    ∀ (es : List Entry) (st : SendState), (∀ e ∈ es, e.wf) →
    ∃ st', List.foldlM (sendEntryStep a) st es = Except.ok st' ∧
      st'.success = st.success + es.countP (entrySucceeds a) ∧
      st'.failed = st.failed + es.countP (fun e => !(entrySucceeds a e)) ∧
      st'.slept = st.slept + es.countP (entrySucceeds a) ∧
      st'.attempts.length = st.attempts.length
        + es.countP (fun e => decide (a ≠ [] ∨ e.message ≠ [])) := by
  intro es
  induction es with
  | nil =>
    intro st _
    exact ⟨st, rfl, by simp, by simp, by simp, by simp⟩
  | cons e es ih =>
    intro st hwf
    obtain ⟨st₁, hstep, hs1, hf1, hsl1, hat1⟩ :=
      sendEntryStep_wf a st e (hwf e (List.mem_cons_self e es))
    obtain ⟨st', hfold, hs2, hf2, hsl2, hat2⟩ :=
      ih st₁ (fun x hx => hwf x (List.mem_cons_of_mem _ hx))
    refine ⟨st', ?_, ?_, ?_, ?_, ?_⟩
    · rw [List.foldlM_cons, hstep]
      simpa using hfold
    · rw [hs2, hs1, List.countP_cons]
      omega
    · rw [hf2, hf1, List.countP_cons]
      rcases hb : entrySucceeds a e <;> simp [hb] <;> try omega
    · rw [hsl2, hsl1, List.countP_cons]
      omega
    · rw [hat2, hat1, List.countP_cons]
      by_cases hce : a ≠ [] ∨ e.message ≠ [] <;> simp [hce] <;> try omega

/-- Sleeps and successes stay in lockstep across the whole loop, for any
batch (well-formed or not) that does not abort. -/
lemma sendAll_fold_slept (a : List (List Char)) :
    ∀ (es : List Entry) (st st' : SendState),
      List.foldlM (sendEntryStep a) st es = Except.ok st' →
      st'.slept + st.success = st'.success + st.slept := by
  intro es
  induction es with
  | nil =>
    intro st st' h
    rw [List.foldlM_nil] at h
    injection h with h
    subst h
    omega
  | cons e es ih =>
    intro st st' h
    rw [List.foldlM_cons] at h
    cases hstep : sendEntryStep a st e with
    | error b =>
      rw [hstep] at h
      exact Except.noConfusion h
    | ok st₁ =>
      rw [hstep] at h
      have h₂ := ih st₁ st' h
      have h₁ := (sendEntryStep_ok_counts a st e st₁ hstep).1
      omega

/-- Group-typed send calls never carry a reply target, across the whole
loop. -/
lemma sendAll_fold_attempts_group (a : List (List Char)) :
    ∀ (es : List Entry) (st st' : SendState),
      List.foldlM (sendEntryStep a) st es = Except.ok st' →
      (∀ m ∈ st.attempts, m.etype = EntryType.group → m.replyTo = none) →
      ∀ m ∈ st'.attempts, m.etype = EntryType.group → m.replyTo = none := by
  intro es
  induction es with
  | nil =>
    intro st st' h hst
    rw [List.foldlM_nil] at h
    injection h with h
    subst h
    exact hst
  | cons e es ih =>
    intro st st' h hst
    rw [List.foldlM_cons] at h
    cases hstep : sendEntryStep a st e with
    | error b =>
      rw [hstep] at h
      exact Except.noConfusion h
    | ok st₁ =>
      rw [hstep] at h
      refine ih st₁ st' h ?_
      intro m hm hg
      rcases sendEntryStep_attempts_group a st e st₁ hstep m hm with hold | hnew
      · exact hst m hold hg
      · exact hnew hg

/-- Claim C2, counterexample: a batch of one job whose remote send call
raises.  Its outcome is recorded (`success + failed = 1`), but the loop
performs **zero** rate-delay sleeps: the `asyncio.sleep(rate_delay)` call
sits inside the `try` after the success path, so no delay is charged
after a failed job — contradicting "whether that job succeeded or
failed, the loop sleeps ... before handling the next job". -/
theorem C2_counterexample :
    (sendAllState [] [⟨EntryType.group, ⟨some 1, none, none, some "G".toList, none⟩,
        "hi".toList, Except.error "boom".toList⟩]).map
      (fun st => (st.success + st.failed, st.slept)) = Except.ok (1, 0) := by
  decide

/-- Claim C2 (amended): the rate delay is charged once per **successful**
job — including after the last job's send, before the tally is reported —
and never after a failed job: on any non-aborting run the number of
sleeps equals the number of successes. -/
theorem C2_sleep_per_success_amended (a : List (List Char)) (es : List Entry)
    (st' : SendState) (h : sendAllState a es = Except.ok st') :
    st'.slept = st'.success := by
  have h₁ := sendAll_fold_slept a es initSendState st' h
  simpa [initSendState] using h₁

/-- Witness for C2 (amended): a single successful job sleeps exactly
once (after the last job's send). -/
theorem C2_sleep_per_success_amended_witness :
    (⟨1, 0, 1, some "G (клиент: N/A)".toList,
        [SentMsg.message 1 "hi".toList none EntryType.group]⟩ : SendState).slept
      = (⟨1, 0, 1, some "G (клиент: N/A)".toList,
          [SentMsg.message 1 "hi".toList none EntryType.group]⟩ : SendState).success :=
  C2_sleep_per_success_amended []
    [⟨EntryType.group, ⟨some 1, none, none, some "G".toList, none⟩,
      "hi".toList, Except.ok ()⟩]
    ⟨1, 0, 1, some "G (клиент: N/A)".toList,
      [SentMsg.message 1 "hi".toList none EntryType.group]⟩
    (by decide)

/-- Claim C3: in a batch of well-formed send jobs (each actually
performing a send) in which exactly one job's remote call raises and the
rest succeed, the loop attempts all N jobs (one send call per job, no
early termination) and returns the tally (N-1, 1). -/
theorem C3_partial_failure_tally (a : List (List Char)) (es : List Entry)
    (hwf : ∀ e ∈ es, e.wf)
    (hsend : ∀ e ∈ es, a ≠ [] ∨ e.message ≠ [])
    (hfail : es.countP (fun e => !(remoteOk e)) = 1) :
    send_all a es = Except.ok (es.length - 1, 1) ∧
    ∃ st, sendAllState a es = Except.ok st ∧ st.attempts.length = es.length := by
  obtain ⟨st', hok, hs, hf, hsl, hat⟩ := sendAll_fold_wf a es initSendState hwf
  have hok' : sendAllState a es = Except.ok st' := hok
  have hcongn : es.countP (fun e => !(entrySucceeds a e)) = 1 := by
    rw [← hfail]
    exact List.countP_congr (fun e he => by
      rcases hsend e he with hne | hne <;> simp [entrySucceeds, hne])
  have hsplit := List.length_eq_countP_add_countP (entrySucceeds a) es
  have hbridge : es.countP (fun e => decide ¬(entrySucceeds a e = true))
      = es.countP (fun e => !(entrySucceeds a e)) :=
    List.countP_congr (fun e he => by cases hb : entrySucceeds a e <;> simp [hb])
  have hcountS : es.countP (entrySucceeds a) = es.length - 1 := by omega
  have hsendall : es.countP (fun e => decide (a ≠ [] ∨ e.message ≠ []))
      = es.length :=
    List.countP_eq_length.mpr (fun e he => by
      rcases hsend e he with hne | hne <;> simp [hne])
  have h1 : st'.success = es.length - 1 := by
    rw [hs, hcountS]
    simp [initSendState]
  have h2 : st'.failed = 1 := by
    rw [hf, hcongn]
    simp [initSendState]
  refine ⟨?_, st', hok', ?_⟩
  · simp only [send_all, hok', Except.map, h1, h2]
  · rw [hat, hsendall]
    simp [initSendState]

/-- Witness for C3: a three-job batch whose middle job's remote call
raises yields the tally (2, 1) with all three jobs attempted. -/
theorem C3_partial_failure_tally_witness :
    send_all []
        [⟨EntryType.group, ⟨some 1, none, none, some "A".toList, none⟩,
          "m".toList, Except.ok ()⟩,
         ⟨EntryType.group, ⟨some 2, none, none, some "B".toList, none⟩,
          "m".toList, Except.error "boom".toList⟩,
         ⟨EntryType.theme, ⟨none, some 3, some 4, some "C".toList, none⟩,
          "m".toList, Except.ok ()⟩]
      = Except.ok (3 - 1, 1) ∧
    ∃ st, sendAllState []
        [⟨EntryType.group, ⟨some 1, none, none, some "A".toList, none⟩,
          "m".toList, Except.ok ()⟩,
         ⟨EntryType.group, ⟨some 2, none, none, some "B".toList, none⟩,
          "m".toList, Except.error "boom".toList⟩,
         ⟨EntryType.theme, ⟨none, some 3, some 4, some "C".toList, none⟩,
          "m".toList, Except.ok ()⟩]
      = Except.ok st ∧ st.attempts.length = 3 :=
  C3_partial_failure_tally []
    [⟨EntryType.group, ⟨some 1, none, none, some "A".toList, none⟩,
      "m".toList, Except.ok ()⟩,
     ⟨EntryType.group, ⟨some 2, none, none, some "B".toList, none⟩,
      "m".toList, Except.error "boom".toList⟩,
     ⟨EntryType.theme, ⟨none, some 3, some 4, some "C".toList, none⟩,
      "m".toList, Except.ok ()⟩]
    (by decide) (by decide) (by decide)

/-- Claim C5: for the batch [Group(id 100, name "A"),
Thread(chat 200, thread 5, name "B")], template body `"Hi [client]"`,
binding `client ↦ "Acme"` and no attachments, the loop sends the text
`"Hi Acme"` to target 100 with no reply target and to target 200 with
reply target 5, returning the tally (2, 0); and in general a send call
made for a group-typed entry never carries a reply target — the thread id
is passed only for theme entries. -/
theorem C5_example_scenario :
    ((send_all []
        [⟨EntryType.group, ⟨some 100, none, none, some "A".toList, some []⟩,
          resolve_text [("client".toList, "Acme".toList)] none []
            "Hi [client]".toList, Except.ok ()⟩,
         ⟨EntryType.theme, ⟨none, some 200, some 5, some "B".toList, some []⟩,
          resolve_text [("client".toList, "Acme".toList)] none []
            "Hi [client]".toList, Except.ok ()⟩]
      = Except.ok (2, 0)) ∧
     ((sendAllState []
        [⟨EntryType.group, ⟨some 100, none, none, some "A".toList, some []⟩,
          resolve_text [("client".toList, "Acme".toList)] none []
            "Hi [client]".toList, Except.ok ()⟩,
         ⟨EntryType.theme, ⟨none, some 200, some 5, some "B".toList, some []⟩,
          resolve_text [("client".toList, "Acme".toList)] none []
            "Hi [client]".toList, Except.ok ()⟩]).map SendState.attempts
      = Except.ok
          [SentMsg.message 100 "Hi Acme".toList none EntryType.group,
           SentMsg.message 200 "Hi Acme".toList (some 5) EntryType.theme])) ∧
    ∀ (a : List (List Char)) (es : List Entry) (st : SendState),
      sendAllState a es = Except.ok st →
      ∀ m ∈ st.attempts, m.etype = EntryType.group → m.replyTo = none := by
  have hmsg : resolve_text [("client".toList, "Acme".toList)] none []
      "Hi [client]".toList = "Hi Acme".toList := by
    simp [resolve_text, replace_vars, pyReplace, pyReplaceP, placeholder]
  constructor
  · constructor
    · simp only [hmsg]
      decide
    · simp only [hmsg]
      decide
  · intro a es st h m hm hg
    exact sendAll_fold_attempts_group a es initSendState st h
      (by intro m hm'; simp [initSendState] at hm') m hm hg

/-- Witness for C5: the reply-target clause applied at a concrete run
containing one group-typed send. -/
theorem C5_example_scenario_witness :
    (SentMsg.message 7 "m".toList none EntryType.group).replyTo = none :=
  C5_example_scenario.2 []
    [⟨EntryType.group, ⟨some 7, none, none, some [], none⟩,
      "m".toList, Except.ok ()⟩]
    ⟨1, 0, 1, some " (клиент: N/A)".toList,
      [SentMsg.message 7 "m".toList none EntryType.group]⟩
    (by decide)
    (SentMsg.message 7 "m".toList none EntryType.group)
    (by decide) rfl

/-- Claim C10: when the first job raises before the `name` local is
assigned — here a group-typed recipient record lacking its `id` key, so
`data['id']` raises `KeyError` — the `except` handler's log line reads
the unbound `name` and itself raises `UnboundLocalError`: the whole batch
aborts, no per-recipient failure is recorded, the second job is never
attempted, and no tally is returned. -/
theorem C10_unbound_name_aborts_batch :
    send_all []
        [⟨EntryType.group, ⟨none, none, none, some "G".toList, none⟩,
          "hello".toList, Except.ok ()⟩,
         ⟨EntryType.group, ⟨some 2, none, none, some "H".toList, none⟩,
          "hello".toList, Except.ok ()⟩]
      = Except.error PyAbort.unboundLocalName := by
  decide

end TgApp
